import Mathlib

/-!
Verification of the CivicXAI cognitive reasoning engine.

Shallow embedding of `cognitive/pln/pln_rules.py`, `cognitive/pln/advanced_pln.py`,
`cognitive/causal_inference.py`, `cognitive/confidence_scorer.py` and
`cognitive/orchestrator/orchestrator.py`. Python floats are modelled as exact
rationals (ℚ), except for the causal-correlation computation, which uses `** 0.5`
and is therefore modelled over ℝ with `Real.sqrt`. Python dicts keyed by strings
are modelled as association lists with first-match lookup and
replace-or-append insertion, which preserves the dict's key-lookup semantics.
-/

namespace CivicXAI

/-- `TruthValue` from `pln_rules.py`: a plain dataclass holding a strength and a
confidence. The dataclass performs no validation of either field at
construction. -/
structure TruthValue where
  strength : ℚ
  confidence : ℚ
  deriving DecidableEq, Repr

/-- `PLNRulesEngine.deduction`: `(s1*s2, min(c1,c2)*0.9)`. -/
def deduction (premise1 premise2 : TruthValue) : TruthValue :=
  { strength := premise1.strength * premise2.strength
    confidence := min premise1.confidence premise2.confidence * (9/10) }

/-- `PLNRulesEngine.abduction`: `(s1*s2*0.8, min(c1,c2)*0.7)`. -/
def abduction (implication consequent : TruthValue) : TruthValue :=
  { strength := implication.strength * consequent.strength * (8/10)
    confidence := min implication.confidence consequent.confidence * (7/10) }

/-- `PLNRulesEngine.induction`: `(0.5, 0.0)` on an empty instance list, else the
mean strength with confidence `min(0.9, n/10)`. -/
def induction (instances : List TruthValue) : TruthValue :=
  if instances.isEmpty then { strength := 1/2, confidence := 0 }
  else
    { strength := (instances.map TruthValue.strength).sum / instances.length
      confidence := min (9/10) (instances.length / 10) }

/-- `PLNRulesEngine.conjunction`: `(s1*s2, min(c1,c2))`. -/
def conjunction (tv1 tv2 : TruthValue) : TruthValue :=
  { strength := tv1.strength * tv2.strength
    confidence := min tv1.confidence tv2.confidence }

/-- `PLNRulesEngine.disjunction`: `(s1+s2-s1*s2, min(c1,c2))`. -/
def disjunction (tv1 tv2 : TruthValue) : TruthValue :=
  { strength := tv1.strength + tv2.strength - tv1.strength * tv2.strength
    confidence := min tv1.confidence tv2.confidence }

/-- `PLNRulesEngine.negation`: `(1-s, c)`. -/
def negation (tv : TruthValue) : TruthValue :=
  { strength := 1 - tv.strength, confidence := tv.confidence }

/-- A truth value whose two components lie in `[0,1]`. -/
def TruthValue.InRange (tv : TruthValue) : Prop :=
  0 ≤ tv.strength ∧ tv.strength ≤ 1 ∧ 0 ≤ tv.confidence ∧ tv.confidence ≤ 1

instance (tv : TruthValue) : Decidable tv.InRange := by
  unfold TruthValue.InRange; infer_instance

/-- A rule of `PLNRulesEngine.rules`: condition, conclusion, truth value and
description. -/
structure Rule where
  condition : String
  conclusion : String
  tv : TruthValue
  description : String
  deriving DecidableEq, Repr

/-- Association-list lookup, the key-lookup semantics of a Python dict. -/
def alookup {α : Type} : List (String × α) → String → Option α
  | [], _ => none
  | (k, v) :: rest, key => if key = k then some v else alookup rest key

/-- Python dict assignment `d[k] = v`: replace the binding in place when the key
is present, append it otherwise. -/
def dictInsert {α : Type} (d : List (String × α)) (k : String) (v : α) :
    List (String × α) :=
  if (alookup d k).isSome then d.map (fun p => if p.1 = k then (k, v) else p)
  else d ++ [(k, v)]

/-- The seeded rule table built by `PLNRulesEngine._initialize_rules`. -/
def defaultRules : List (String × Rule) :=
  [ ("poverty_implies_priority",
      { condition := "High_Poverty_Region", conclusion := "High_Priority"
        tv := ⟨85/100, 90/100⟩
        description := "High poverty regions get high priority" }),
    ("impact_boosts_priority",
      { condition := "High_Impact_Project", conclusion := "Increased_Priority"
        tv := ⟨80/100, 85/100⟩
        description := "High impact projects boost priority" }),
    ("corruption_reduces_allocation",
      { condition := "High_Corruption_Risk", conclusion := "Reduced_Allocation"
        tv := ⟨75/100, 80/100⟩
        description := "High corruption risk reduces allocation" }),
    ("deforestation_needs_intervention",
      { condition := "High_Deforestation"
        conclusion := "Environmental_Intervention_Needed"
        tv := ⟨80/100, 85/100⟩
        description := "High deforestation requires intervention" }) ]

/-- Result of `PLNRulesEngine.apply_rule`: either the applied-rule record or the
structured "not applied" record (the two dict shapes the Python code returns). -/
inductive ApplyResult
  | applied (rule condition conclusion : String) (tv : TruthValue)
      (description : String)
  | notApplied (rule condition reason : String)
  deriving DecidableEq, Repr

/-- `PLNRulesEngine.apply_rule`: `None` when the rule name is not in the table;
otherwise the applied record when the evidence makes the condition truthy
(`evidence.get(condition, False)`), else the "not applied" record. -/
def applyRule (rules : List (String × Rule)) (ruleName : String)
    (evidence : List (String × Bool)) : Option ApplyResult :=
  match alookup rules ruleName with
  | none => none
  | some r =>
    if (alookup evidence r.condition).getD false then
      some (.applied ruleName r.condition r.conclusion r.tv r.description)
    else
      some (.notApplied ruleName r.condition "Condition not met in evidence")

/-- C1: the deduction operator computes
`(A.strength*B.strength, min(A.confidence,B.confidence)*0.9)` for every pair of
truth values, and in particular `deduction(TV(0.8,0.9), TV(0.7,0.8))`
is `(0.56, 0.72)`. -/
theorem c1_deduction_formula :
    (∀ A B : TruthValue,
      deduction A B =
        ⟨A.strength * B.strength, min A.confidence B.confidence * (9/10)⟩) ∧
    deduction ⟨8/10, 9/10⟩ ⟨7/10, 8/10⟩ = ⟨56/100, 72/100⟩ := by
  constructor
  · intro A B; rfl
  · simp [deduction]
    norm_num

/-- Elements of a list that are each at most 1 sum to at most the list's
length. -/
theorem list_sum_le_length (l : List ℚ) (h : ∀ x ∈ l, x ≤ 1) :
    l.sum ≤ l.length := by
  induction l with
  | nil => simp
  | cons a t ih =>
    simp only [List.sum_cons, List.length_cons]
    have ha := h a (List.mem_cons_self a t)
    have ht := ih (fun x hx => h x (List.mem_cons_of_mem a hx))
    push_cast
    push_cast at ht
    linarith

/-- Elements of a list that are each nonnegative sum to a nonnegative value. -/
theorem list_sum_nonneg (l : List ℚ) (h : ∀ x ∈ l, 0 ≤ x) : 0 ≤ l.sum := by
  induction l with
  | nil => simp
  | cons a t ih =>
    simp only [List.sum_cons]
    have ha := h a (List.mem_cons_self a t)
    have ht := ih (fun x hx => h x (List.mem_cons_of_mem a hx))
    linarith

/-- The induction operator maps in-range instance lists to an in-range truth
value (helper for C2). -/
theorem induction_inRange (l : List TruthValue)
    (hl : ∀ tv ∈ l, tv.InRange) : (induction l).InRange := by
  match l with
  | [] =>
    refine ⟨?_, ?_, ?_, ?_⟩ <;> norm_num [induction]
  | a :: t =>
    have hnq : (0:ℚ) < ((a :: t).length : ℚ) := by
      exact_mod_cast Nat.succ_pos t.length
    have hsum0 : 0 ≤ ((a :: t).map TruthValue.strength).sum := by
      apply list_sum_nonneg
      intro x hx
      obtain ⟨tv, htv, rfl⟩ := List.mem_map.mp hx
      exact (hl tv htv).1
    have hsum1 : ((a :: t).map TruthValue.strength).sum ≤
        ((a :: t).length : ℚ) := by
      have h := list_sum_le_length ((a :: t).map TruthValue.strength)
        (fun x hx => by
          obtain ⟨tv, htv, rfl⟩ := List.mem_map.mp hx
          exact (hl tv htv).2.1)
      simpa using h
    have hne : (induction (a :: t)) =
        { strength := ((a :: t).map TruthValue.strength).sum / (a :: t).length
          confidence := min (9/10) ((a :: t).length / 10) } := by
      simp [induction]
    rw [hne]
    refine ⟨?_, ?_, ?_, ?_⟩
    · positivity
    · exact (div_le_one hnq).mpr hsum1
    · have h10 : (0:ℚ) ≤ ((a :: t).length : ℚ) / 10 := by positivity
      exact le_min (by norm_num) h10
    · exact min_le_of_left_le (by norm_num)

/-- C2: every calculus operator maps truth values with components in `[0,1]`
(and any instance list of such truth values, for induction) to a truth value
with components in `[0,1]`. -/
theorem c2_operators_preserve_range (A B : TruthValue)
    (instances : List TruthValue)
    (hA : A.InRange) (hB : B.InRange)
    (hl : ∀ tv ∈ instances, tv.InRange) :
    (deduction A B).InRange ∧ (abduction A B).InRange ∧
    (induction instances).InRange ∧ (conjunction A B).InRange ∧
    (disjunction A B).InRange ∧ (negation A).InRange := by
  obtain ⟨hs0, hs1, hc0, hc1⟩ := hA
  obtain ⟨hs0', hs1', hc0', hc1'⟩ := hB
  have hmin0 : 0 ≤ min A.confidence B.confidence := le_min hc0 hc0'
  have hmin1 : min A.confidence B.confidence ≤ A.confidence := min_le_left _ _
  refine ⟨⟨?_, ?_, ?_, ?_⟩, ⟨?_, ?_, ?_, ?_⟩, induction_inRange instances hl,
    ⟨?_, ?_, ?_, ?_⟩, ⟨?_, ?_, ?_, ?_⟩, ⟨?_, ?_, ?_, ?_⟩⟩ <;>
    simp only [deduction, abduction, conjunction, disjunction, negation]
  · exact mul_nonneg hs0 hs0'
  · exact mul_le_one₀ hs1 hs0' hs1'
  · nlinarith
  · nlinarith
  · nlinarith
  · nlinarith
  · nlinarith
  · nlinarith
  · exact mul_nonneg hs0 hs0'
  · exact mul_le_one₀ hs1 hs0' hs1'
  · exact hmin0
  · nlinarith
  · nlinarith
  · nlinarith
  · exact hmin0
  · nlinarith
  · linarith
  · linarith
  · exact hc0
  · exact hc1

/-- Witness for C2 at concrete truth values `TV(1/2,1/2)` and the singleton
instance list. -/
theorem c2_operators_preserve_range_witness :
    (deduction ⟨1/2, 1/2⟩ ⟨1/2, 1/2⟩).InRange ∧
    (abduction ⟨1/2, 1/2⟩ ⟨1/2, 1/2⟩).InRange ∧
    (induction [⟨1/2, 1/2⟩]).InRange ∧
    (conjunction ⟨1/2, 1/2⟩ ⟨1/2, 1/2⟩).InRange ∧
    (disjunction ⟨1/2, 1/2⟩ ⟨1/2, 1/2⟩).InRange ∧
    (negation ⟨1/2, 1/2⟩).InRange :=
  c2_operators_preserve_range ⟨1/2, 1/2⟩ ⟨1/2, 1/2⟩ [⟨1/2, 1/2⟩]
    (by refine ⟨?_, ?_, ?_, ?_⟩ <;> norm_num)
    (by refine ⟨?_, ?_, ?_, ?_⟩ <;> norm_num)
    (by intro tv htv
        rw [List.mem_singleton] at htv
        subst htv
        refine ⟨?_, ?_, ?_, ?_⟩ <;> norm_num)

/-- C7 counterexample: `TruthValue` is a plain dataclass, so constructing one
with strength `1.5` and confidence `2` succeeds and yields an instance whose
components are out of range — nothing is rejected at construction. -/
theorem c7_counterexample :
    (TruthValue.mk (3/2) 2).strength = 3/2 ∧
    (TruthValue.mk (3/2) 2).confidence = 2 ∧
    (1:ℚ) < (TruthValue.mk (3/2) 2).strength := by
  refine ⟨rfl, rfl, ?_⟩
  norm_num

/-- C7 (amended): `TruthValue` construction performs no validation — it accepts
any pair of components and stores them unchanged, so instances with
out-of-range components can exist. -/
theorem c7_construction_unvalidated (s c : ℚ) :
    (TruthValue.mk s c).strength = s ∧ (TruthValue.mk s c).confidence = c :=
  ⟨rfl, rfl⟩

/-- C8 counterexample: for a rule name absent from the table, `apply_rule`
returns `None`, not a structured "not applied" result. -/
theorem c8_counterexample :
    applyRule defaultRules "unknown_rule" [] = none := by
  rfl

/-- C8 (amended): for a rule name absent from the table `apply_rule` returns
`None` (and never raises); a structured result is returned exactly when the
rule name is present — the "not applied" record when the rule's condition is
not truthy in the evidence. -/
theorem c8_apply_rule_unknown (rules : List (String × Rule)) (ruleName : String)
    (evidence : List (String × Bool)) :
    (alookup rules ruleName = none → applyRule rules ruleName evidence = none) ∧
    (∀ r, alookup rules ruleName = some r →
      (alookup evidence r.condition).getD false = false →
      applyRule rules ruleName evidence =
        some (.notApplied ruleName r.condition
          "Condition not met in evidence")) := by
  constructor
  · intro h; simp [applyRule, h]
  · intro r hr hc; simp [applyRule, hr, hc]

/-- Witness for C8 (amended): the empty rule table at a concrete name, and the
seeded table at a known rule whose condition is absent from the evidence. -/
theorem c8_apply_rule_unknown_witness :
    applyRule [] "poverty_implies_priority" [] = none ∧
    applyRule defaultRules "poverty_implies_priority" [] =
      some (.notApplied "poverty_implies_priority" "High_Poverty_Region"
        "Condition not met in evidence") :=
  ⟨(c8_apply_rule_unknown [] "poverty_implies_priority" []).1 rfl,
   (c8_apply_rule_unknown defaultRules "poverty_implies_priority" []).2
     { condition := "High_Poverty_Region", conclusion := "High_Priority"
       tv := ⟨85/100, 90/100⟩
       description := "High poverty regions get high priority" }
     rfl rfl⟩

/-! ### Advanced PLN: forward and backward chaining (`advanced_pln.py`) -/

/-- `InferenceResult` from `advanced_pln.py`. -/
structure InferenceResult where
  conclusion : String
  truth_value : TruthValue
  inference_path : List String
  premises_used : List String
  rules_applied : List String
  depth : Nat
  deriving DecidableEq, Repr

/-- One pass of the inner rule loop of `AdvancedPLNEngine.forward_chaining`:
for each rule in order, when its condition is in the working set and its
conclusion is not, record the deduced conclusion and add it to the working
set (the working set mutates within the pass, as in the Python loop). -/
def fcStep (rules : List (String × Rule)) (stepIdx : Nat)
    (ws : List (String × TruthValue)) :
    List InferenceResult × List (String × TruthValue) :=
  rules.foldl
    (fun acc nr =>
      match alookup acc.2 nr.2.condition with
      | none => acc
      | some premiseTv =>
        match alookup acc.2 nr.2.conclusion with
        | some _ => acc
        | none =>
          let conclusionTv := deduction premiseTv nr.2.tv
          (acc.1 ++ [{ conclusion := nr.2.conclusion
                       truth_value := conclusionTv
                       inference_path := [nr.2.condition, nr.2.conclusion]
                       premises_used := [nr.2.condition]
                       rules_applied := [nr.1]
                       depth := stepIdx }],
           dictInsert acc.2 nr.2.conclusion conclusionTv))
    ([], ws)

/-- The step loop of `forward_chaining`: up to `fuel` more iterations, breaking
as soon as an iteration produces no new inference. Returns the accumulated
results, the final working set, and the number of loop iterations executed. -/
def forwardChainingAux (rules : List (String × Rule)) :
    Nat → Nat → List (String × TruthValue) → List InferenceResult →
    List InferenceResult × List (String × TruthValue) × Nat
  | _, 0, ws, results => (results, ws, 0)
  | stepIdx, fuel + 1, ws, results =>
    let step := fcStep rules (stepIdx + 1) ws
    if step.1.isEmpty then (results, step.2, 1)
    else
      let rest := forwardChainingAux rules (stepIdx + 1) fuel step.2
        (results ++ step.1)
      (rest.1, rest.2.1, rest.2.2 + 1)

/-- `AdvancedPLNEngine.forward_chaining` (default `max_steps = 10`),
instrumented to also return the final working set and the iteration count. -/
def forwardChaining (premises : List (String × TruthValue))
    (rules : List (String × Rule)) (maxSteps : Nat := 10) :
    List InferenceResult × List (String × TruthValue) × Nat :=
  forwardChainingAux rules 0 maxSteps
    (premises.foldl (fun d p => dictInsert d p.1 p.2) []) []

/-- `AdvancedPLNEngine.backward_chaining`: a goal already known is returned at
depth 0; otherwise, with positive remaining depth, the first rule concluding
the goal whose condition can be recursively proven yields the composed
result. -/
def backwardChaining (rules : List (String × Rule))
    (knownFacts : List (String × TruthValue)) :
    Nat → String → Option InferenceResult
  | maxDepth, goal =>
    match alookup knownFacts goal with
    | some tv =>
      some { conclusion := goal, truth_value := tv, inference_path := [goal]
             premises_used := [], rules_applied := [], depth := 0 }
    | none =>
      match maxDepth with
      | 0 => none
      | d + 1 =>
        rules.findSome? fun nr =>
          if nr.2.conclusion = goal then
            match backwardChaining rules knownFacts d nr.2.condition with
            | some sub =>
              some { conclusion := goal
                     truth_value := deduction sub.truth_value nr.2.tv
                     inference_path := sub.inference_path ++ [goal]
                     premises_used := sub.premises_used ++ [nr.2.condition]
                     rules_applied := sub.rules_applied ++ [nr.1]
                     depth := sub.depth + 1 }
            | none => none
          else none

/-! ### Causal chain search (`causal_inference.py`, `infer_causal_chain`) -/

/-- One edge record of the causal graph adjacency list. -/
structure EffectInfo where
  effect : String
  strength : ℚ
  confidence : ℚ
  evidence : List String
  deriving DecidableEq, Repr

/-- The depth-limited DFS inside `CausalInferenceEngine.infer_causal_chain`.
The fuel argument is `max_depth + 1 - depth`: the Python guard
`depth > max_depth` is the `fuel = 0` case. A node on the recursion stack is
never re-entered (`visited`), and an effect already on the current path is
skipped (`if effect not in path`). -/
def dfsChains (graph : List (String × List EffectInfo)) (target : String) :
    Nat → String → List String → List String → List (List String)
  | 0, _, _, _ => []
  | fuel + 1, current, path, visited =>
    if current = target then [path]
    else if current ∈ visited then []
    else
      ((alookup graph current).getD []).foldl
        (fun chains ei =>
          if ei.effect ∈ path then chains
          else chains ++
            dfsChains graph target fuel ei.effect (path ++ [ei.effect])
              (current :: visited))
        []

/-- `CausalInferenceEngine.infer_causal_chain` (default `max_depth = 5`). -/
def inferCausalChain (graph : List (String × List EffectInfo))
    (start targetEnd : String) (maxDepth : Nat := 5) : List (List String) :=
  dfsChains graph targetEnd (maxDepth + 1) start [start] []

/-- The forward-chaining loop executes at most `fuel` iterations (helper for
C5). -/
theorem forwardChainingAux_iters_le (rules : List (String × Rule))
    (stepIdx fuel : Nat) (ws : List (String × TruthValue))
    (results : List InferenceResult) :
    (forwardChainingAux rules stepIdx fuel ws results).2.2 ≤ fuel := by
  induction fuel generalizing stepIdx ws results with
  | zero => simp [forwardChainingAux]
  | succ n ih =>
    rw [forwardChainingAux]
    by_cases h : (fcStep rules (stepIdx + 1) ws).1.isEmpty
    · simp [h]
    · simp only [Bool.not_eq_true] at h
      simp only [h, Bool.false_eq_true, if_false]
      have := ih (stepIdx + 1) (fcStep rules (stepIdx + 1) ws).2
        (results ++ (fcStep rules (stepIdx + 1) ws).1)
      omega

/-- A successful backward-chaining result has depth at most the depth bound
(helper for C5). -/
theorem backwardChaining_depth_le (rules : List (String × Rule))
    (knownFacts : List (String × TruthValue)) (maxDepth : Nat) (goal : String)
    (r : InferenceResult)
    (h : backwardChaining rules knownFacts maxDepth goal = some r) :
    r.depth ≤ maxDepth := by
  induction maxDepth generalizing goal r with
  | zero =>
    rw [backwardChaining] at h
    cases hf : alookup knownFacts goal with
    | none => rw [hf] at h; exact absurd h (by simp)
    | some tv => rw [hf] at h; cases h; rfl
  | succ d ih =>
    rw [backwardChaining] at h
    cases hf : alookup knownFacts goal with
    | some tv => rw [hf] at h; cases h; exact Nat.zero_le _
    | none =>
      rw [hf] at h
      simp only at h
      obtain ⟨nr, hmem, hnr⟩ := List.exists_of_findSome?_eq_some h
      by_cases hc : nr.2.conclusion = goal
      · rw [if_pos hc] at hnr
        cases hsub : backwardChaining rules knownFacts d nr.2.condition with
        | none => rw [hsub] at hnr; exact absurd hnr (by simp)
        | some sub =>
          rw [hsub] at hnr
          cases hnr
          have := ih nr.2.condition sub hsub
          simp only
          omega
      · rw [if_neg hc] at hnr
        exact absurd hnr (by simp)

/-- Every chain emitted by the causal DFS has length at most the path length
plus the remaining fuel minus one (helper for C5). -/
theorem dfsChains_length_le (graph : List (String × List EffectInfo))
    (target : String) (fuel : Nat) (current : String)
    (path visited : List String) (c : List String)
    (hc : c ∈ dfsChains graph target fuel current path visited) :
    c.length ≤ path.length + fuel - 1 := by
  induction fuel generalizing current path visited c with
  | zero => simp [dfsChains] at hc
  | succ n ih =>
    rw [dfsChains] at hc
    by_cases ht : current = target
    · rw [if_pos ht] at hc
      rw [List.mem_singleton] at hc
      subst hc
      omega
    · rw [if_neg ht] at hc
      by_cases hv : current ∈ visited
      · rw [if_pos hv] at hc
        simp at hc
      · rw [if_neg hv] at hc
        -- the foldl accumulates chains from recursive calls
        have main : ∀ (l : List EffectInfo) (acc : List (List String)),
            (∀ c' ∈ acc, c'.length ≤ path.length + (n + 1) - 1) →
            c ∈ l.foldl
              (fun chains ei =>
                if ei.effect ∈ path then chains
                else chains ++
                  dfsChains graph target n ei.effect (path ++ [ei.effect])
                    (current :: visited)) acc →
            c.length ≤ path.length + (n + 1) - 1 := by
          intro l
          induction l with
          | nil => intro acc hacc hmem; exact hacc c hmem
          | cons ei rest ihl =>
            intro acc hacc hmem
            simp only [List.foldl_cons] at hmem
            by_cases hp : ei.effect ∈ path
            · rw [if_pos hp] at hmem
              exact ihl acc hacc hmem
            · rw [if_neg hp] at hmem
              refine ihl _ ?_ hmem
              intro c' hc'
              rcases List.mem_append.mp hc' with h1 | h2
              · exact hacc c' h1
              · have := ih ei.effect (path ++ [ei.effect])
                  (current :: visited) c' h2
                simp only [List.length_append, List.length_singleton] at this
                omega
        exact main _ [] (by intro c' hc'; simp at hc') hc

/-- A goal supported within a given depth: it is a known fact, or some rule
concludes it and the rule's condition is supported within one less depth. -/
inductive Supported (rules : List (String × Rule))
    (facts : List (String × TruthValue)) : Nat → String → Prop
  | fact {d : Nat} {g : String} {tv : TruthValue} :
      alookup facts g = some tv → Supported rules facts d g
  | step {d : Nat} {g : String} (nr : String × Rule) :
      nr ∈ rules → nr.2.conclusion = g →
      Supported rules facts d nr.2.condition →
      Supported rules facts (d + 1) g

/-- A backward-chaining success means the goal is supported within the depth
bound — contrapositively, when no supporting rule chain exists within
`max_depth` the function returns `none` (helper for C5). -/
theorem backwardChaining_supported (rules : List (String × Rule))
    (knownFacts : List (String × TruthValue)) (maxDepth : Nat)
    (goal : String) (r : InferenceResult)
    (h : backwardChaining rules knownFacts maxDepth goal = some r) :
    Supported rules knownFacts maxDepth goal := by
  induction maxDepth generalizing goal r with
  | zero =>
    rw [backwardChaining] at h
    cases hf : alookup knownFacts goal with
    | none => rw [hf] at h; exact absurd h (by simp)
    | some tv => exact Supported.fact hf
  | succ d ih =>
    rw [backwardChaining] at h
    cases hf : alookup knownFacts goal with
    | some tv => exact Supported.fact hf
    | none =>
      rw [hf] at h
      simp only at h
      obtain ⟨nr, hmem, hnr⟩ := List.exists_of_findSome?_eq_some h
      by_cases hc : nr.2.conclusion = goal
      · rw [if_pos hc] at hnr
        cases hsub : backwardChaining rules knownFacts d nr.2.condition with
        | none => rw [hsub] at hnr; exact absurd hnr (by simp)
        | some sub =>
          exact Supported.step nr hmem hc (ih nr.2.condition sub hsub)
      · rw [if_neg hc] at hnr
        exact absurd hnr (by simp)

/-- C5: (1) forward chaining performs at most `max_steps` loop iterations;
(2) a backward-chaining success has inference depth at most `max_depth` and
certifies a supporting rule chain within `max_depth`, so the recursion is cut
off at `max_depth` and `none` is returned when no supporting chain fits in
that depth; (3) the causal-chain DFS is a total function on every
causal graph — cyclic ones included — and every chain it returns has at most
`max_depth + 1` nodes. -/
theorem c5_bounded_search :
    (∀ (premises : List (String × TruthValue)) (rules : List (String × Rule))
        (maxSteps : Nat),
      (forwardChaining premises rules maxSteps).2.2 ≤ maxSteps) ∧
    (∀ (rules : List (String × Rule))
        (knownFacts : List (String × TruthValue)) (maxDepth : Nat)
        (goal : String) (r : InferenceResult),
      backwardChaining rules knownFacts maxDepth goal = some r →
      r.depth ≤ maxDepth ∧ Supported rules knownFacts maxDepth goal) ∧
    (∀ (graph : List (String × List EffectInfo)) (start targetEnd : String)
        (maxDepth : Nat) (c : List String),
      c ∈ inferCausalChain graph start targetEnd maxDepth →
      c.length ≤ maxDepth + 1) := by
  refine ⟨?_, ?_, ?_⟩
  · intro premises rules maxSteps
    exact forwardChainingAux_iters_le rules 0 maxSteps _ []
  · intro rules knownFacts maxDepth goal r h
    exact ⟨backwardChaining_depth_le rules knownFacts maxDepth goal r h,
      backwardChaining_supported rules knownFacts maxDepth goal r h⟩
  · intro graph start targetEnd maxDepth c hc
    have := dfsChains_length_le graph targetEnd (maxDepth + 1) start
      [start] [] c hc
    simp only [List.length_singleton] at this
    omega

/-- Looking up a key in an extended association list still finds the original
binding (helper for C10). -/
theorem alookup_append_left {α : Type} (d l : List (String × α)) (k : String)
    (v : α) (h : alookup d k = some v) : alookup (d ++ l) k = some v := by
  induction d with
  | nil => simp [alookup] at h
  | cons p rest ih =>
    rw [List.cons_append, alookup]
    rw [alookup] at h
    by_cases hk : k = p.1
    · rw [if_pos hk] at h ⊢
      · exact h
    · rw [if_neg hk] at h ⊢
      exact ih h

/-- Inserting a key that is absent preserves every existing binding (helper
for C10). -/
theorem alookup_dictInsert_of_absent {α : Type} (d : List (String × α))
    (k' : String) (v' : α) (k : String) (v : α)
    (habs : alookup d k' = none) (h : alookup d k = some v) :
    alookup (dictInsert d k' v') k = some v := by
  unfold dictInsert
  rw [habs]
  simp only [Option.isSome_none, Bool.false_eq_true, if_false]
  exact alookup_append_left d [(k', v')] k v h

/-- One forward-chaining pass preserves every existing working-set binding
(helper for C10). -/
theorem fcStep_preserves (rules : List (String × Rule)) (stepIdx : Nat)
    (ws : List (String × TruthValue)) (k : String) (tv : TruthValue)
    (h : alookup ws k = some tv) :
    alookup (fcStep rules stepIdx ws).2 k = some tv := by
  unfold fcStep
  suffices main : ∀ (l : List (String × Rule))
      (acc : List InferenceResult × List (String × TruthValue)),
      alookup acc.2 k = some tv →
      alookup (l.foldl
        (fun acc nr =>
          match alookup acc.2 nr.2.condition with
          | none => acc
          | some premiseTv =>
            match alookup acc.2 nr.2.conclusion with
            | some _ => acc
            | none =>
              let conclusionTv := deduction premiseTv nr.2.tv
              (acc.1 ++ [{ conclusion := nr.2.conclusion
                           truth_value := conclusionTv
                           inference_path := [nr.2.condition, nr.2.conclusion]
                           premises_used := [nr.2.condition]
                           rules_applied := [nr.1]
                           depth := stepIdx }],
               dictInsert acc.2 nr.2.conclusion conclusionTv)) acc).2 k =
        some tv by
    exact main rules ([], ws) h
  intro l
  induction l with
  | nil => intro acc hacc; exact hacc
  | cons nr rest ih =>
    intro acc hacc
    rw [List.foldl_cons]
    cases hcond : alookup acc.2 nr.2.condition with
    | none => exact ih acc (by simpa [hcond] using hacc)
    | some premiseTv =>
      cases hconc : alookup acc.2 nr.2.conclusion with
      | some t =>
        refine ih _ ?_
        simp only [hcond, hconc]
        exact hacc
      | none =>
        refine ih _ ?_
        simp only [hcond, hconc]
        exact alookup_dictInsert_of_absent acc.2 nr.2.conclusion _ k tv
          hconc hacc

/-- The forward-chaining loop preserves every existing working-set binding
(helper for C10). -/
theorem forwardChainingAux_preserves (rules : List (String × Rule))
    (stepIdx fuel : Nat) (ws : List (String × TruthValue))
    (results : List InferenceResult) (k : String) (tv : TruthValue)
    (h : alookup ws k = some tv) :
    alookup (forwardChainingAux rules stepIdx fuel ws results).2.1 k =
      some tv := by
  induction fuel generalizing stepIdx ws results with
  | zero => simpa [forwardChainingAux] using h
  | succ n ih =>
    rw [forwardChainingAux]
    have hstep := fcStep_preserves rules (stepIdx + 1) ws k tv h
    by_cases he : (fcStep rules (stepIdx + 1) ws).1.isEmpty
    · simpa [he] using hstep
    · simp only [Bool.not_eq_true] at he
      simp only [he, Bool.false_eq_true, if_false]
      exact ih (stepIdx + 1) (fcStep rules (stepIdx + 1) ws).2
        (results ++ (fcStep rules (stepIdx + 1) ws).1) hstep

/-- C10: forward chaining never overwrites a working-set entry — a conclusion
is inserted only when its key is absent, so any binding present in the working
set at any point of the run (in particular every input premise's binding, and
every previously derived conclusion's binding) is unchanged in the final
working set. -/
theorem c10_forward_chaining_preserves_working_set
    (premises : List (String × TruthValue)) (rules : List (String × Rule))
    (maxSteps : Nat) (k : String) (tv : TruthValue) :
    (alookup (premises.foldl (fun d p => dictInsert d p.1 p.2) []) k =
        some tv →
      alookup (forwardChaining premises rules maxSteps).2.1 k = some tv) ∧
    (∀ (stepIdx fuel : Nat) (ws : List (String × TruthValue))
        (results : List InferenceResult),
      alookup ws k = some tv →
      alookup (forwardChainingAux rules stepIdx fuel ws results).2.1 k =
        some tv) := by
  constructor
  · intro h
    exact forwardChainingAux_preserves rules 0 maxSteps _ [] k tv h
  · intro stepIdx fuel ws results h
    exact forwardChainingAux_preserves rules stepIdx fuel ws results k tv h

/-- Witness for C10: the premise `("High_Poverty_Region", TV(0.9,0.9))` keeps
its original truth value in the final working set of a run over the seeded
rule table. -/
theorem c10_forward_chaining_preserves_working_set_witness :
    alookup
      (forwardChaining [("High_Poverty_Region", ⟨9/10, 9/10⟩)] defaultRules
        10).2.1 "High_Poverty_Region" = some ⟨9/10, 9/10⟩ :=
  (c10_forward_chaining_preserves_working_set
    [("High_Poverty_Region", ⟨9/10, 9/10⟩)] defaultRules 10
    "High_Poverty_Region" ⟨9/10, 9/10⟩).1 rfl

/-! ### Confidence scorer (`confidence_scorer.py`) -/

/-- Qualitative confidence level (`ConfidenceScore.level`). -/
inductive Level
  | very_low | low | medium | high | very_high
  deriving DecidableEq, Repr

/-- `ConfidenceScorer._get_confidence_level`: tiered thresholds on the overall
score. -/
def levelOf (score : ℚ) : Level :=
  if score ≥ 9/10 then .very_high
  else if score ≥ 7/10 then .high
  else if score ≥ 1/2 then .medium
  else if score ≥ 3/10 then .low
  else .very_low

/-- One reasoning step as `score_reasoning_chain` reads it: an optional
`truth_value` entry and an `evidence` entry (a missing or empty evidence list
is falsy in Python). -/
structure ChainStep where
  truth_value : Option TruthValue
  evidence : List String
  deriving DecidableEq, Repr

/-- The confidence score returned by `score_reasoning_chain`: overall weighted
score and its level (the components map and explanation text are not needed
by any claim and are omitted). -/
structure ConfidenceScore where
  overall : ℚ
  level : Level
  deriving DecidableEq, Repr

/-- `ConfidenceScorer.score_reasoning_chain`: chain-length tier (weight 0.3),
mean truth-value confidence (weight 0.5; 0.7 default when the first step has
no truth value), and evidence coverage (weight 0.2; 0.5 when no step has
evidence). -/
def scoreReasoningChain (chain : List ChainStep) : ConfidenceScore :=
  match chain with
  | [] => { overall := 0, level := .very_low }
  | first :: _ =>
    let n : ℚ := chain.length
    let chainLengthComp : ℚ :=
      if chain.length = 1 then 1
      else if chain.length ≤ 3 then 9/10
      else if chain.length ≤ 5 then 7/10
      else 1/2
    let truthValuesComp : ℚ :=
      if first.truth_value.isSome then
        ((chain.filterMap ChainStep.truth_value).map
          TruthValue.confidence).sum / n
      else 7/10
    let evidenceCount := (chain.filter (fun s => ¬s.evidence.isEmpty)).length
    let evidenceComp : ℚ :=
      if evidenceCount > 0 then min 1 ((evidenceCount : ℚ) / n) else 1/2
    let overall :=
      chainLengthComp * (3/10) + truthValuesComp * (5/10) +
        evidenceComp * (2/10)
    { overall := overall, level := levelOf overall }

/-- C6 counterexample: a one-step chain with no evidence whose single truth
value has confidence 1 scores exactly 0.9, which the scorer labels
`very_high` — strictly above `medium`. -/
theorem c6_counterexample :
    scoreReasoningChain [{ truth_value := some ⟨9/10, 1⟩, evidence := [] }] =
      { overall := 9/10, level := .very_high } := by
  have h : (1 : ℚ) * (3/10) + 1/1 * (5/10) + 1/2 * (2/10) = 9/10 := by
    norm_num
  simp only [scoreReasoningChain, List.length_cons, List.length_nil,
    List.filterMap, List.filter, List.isEmpty_nil, Option.isSome_some,
    if_true, levelOf]
  norm_num

/-- C6 (amended): for every non-empty reasoning chain in which no step carries
evidence, and whose step truth values all have confidence at most 1, the
overall score is at most 0.9 — the claimed bound `level ≤ medium` does not
hold (the level reaches `very_high` exactly at score 0.9), but the score can
never exceed 0.9. -/
theorem c6_no_evidence_score_bound (chain : List ChainStep)
    (hne : chain ≠ [])
    (hconf : ∀ s ∈ chain, ∀ tv, s.truth_value = some tv → tv.confidence ≤ 1)
    (hev : ∀ s ∈ chain, s.evidence = []) :
    (scoreReasoningChain chain).overall ≤ 9/10 := by
  match chain with
  | [] => exact absurd rfl hne
  | first :: rest =>
    set ch := first :: rest with hch
    have hn : (0:ℚ) < (ch.length : ℚ) := by
      rw [hch]
      exact_mod_cast Nat.succ_pos rest.length
    -- the chain-length component is at most 1
    have hcl : (if ch.length = 1 then (1:ℚ)
        else if ch.length ≤ 3 then 9/10
        else if ch.length ≤ 5 then 7/10 else 1/2) ≤ 1 := by
      split <;> try norm_num
      split <;> try norm_num
      split <;> norm_num
    -- the truth-value component is at most 1
    have htv : (if first.truth_value.isSome then
        ((ch.filterMap ChainStep.truth_value).map
          TruthValue.confidence).sum / (ch.length : ℚ)
      else 7/10) ≤ 1 := by
      by_cases hs : first.truth_value.isSome
      · rw [if_pos hs]
        rw [div_le_one hn]
        have hsum : ((ch.filterMap ChainStep.truth_value).map
            TruthValue.confidence).sum ≤
            (((ch.filterMap ChainStep.truth_value).map
              TruthValue.confidence).length : ℚ) := by
          apply list_sum_le_length
          intro x hx
          obtain ⟨tv, htv', rfl⟩ := List.mem_map.mp hx
          obtain ⟨s, hs', hstv⟩ := List.mem_filterMap.mp htv'
          exact hconf s hs' tv hstv
        have hlen : ((ch.filterMap ChainStep.truth_value).map
            TruthValue.confidence).length ≤ ch.length := by
          rw [List.length_map]
          exact List.length_filterMap_le _ _
        calc ((ch.filterMap ChainStep.truth_value).map
              TruthValue.confidence).sum
            ≤ _ := hsum
          _ ≤ (ch.length : ℚ) := by exact_mod_cast hlen
      · rw [if_neg hs]; norm_num
    -- with no evidence the evidence count is zero
    have hcount : (ch.filter (fun s => ¬s.evidence.isEmpty)).length = 0 := by
      rw [List.length_eq_zero]
      rw [List.filter_eq_nil_iff]
      intro s hs
      have := hev s hs
      simp [this]
    -- assemble
    show (let n : ℚ := ch.length
      let chainLengthComp : ℚ :=
        if ch.length = 1 then 1
        else if ch.length ≤ 3 then 9/10
        else if ch.length ≤ 5 then 7/10
        else 1/2
      let truthValuesComp : ℚ :=
        if first.truth_value.isSome then
          ((ch.filterMap ChainStep.truth_value).map
            TruthValue.confidence).sum / n
        else 7/10
      let evidenceCount := (ch.filter (fun s => ¬s.evidence.isEmpty)).length
      let evidenceComp : ℚ :=
        if evidenceCount > 0 then min 1 ((evidenceCount : ℚ) / n) else 1/2
      let overall :=
        chainLengthComp * (3/10) + truthValuesComp * (5/10) +
          evidenceComp * (2/10)
      ConfidenceScore.mk overall (levelOf overall)).overall ≤ 9/10
    simp only [hcount, gt_iff_lt, lt_irrefl, if_false]
    nlinarith [hcl, htv]

/-- Witness for C6 (amended): a concrete two-step evidence-free chain. -/
theorem c6_no_evidence_score_bound_witness :
    (scoreReasoningChain
      [{ truth_value := some ⟨1/2, 1/2⟩, evidence := [] },
       { truth_value := none, evidence := [] }]).overall ≤ 9/10 :=
  c6_no_evidence_score_bound
    [{ truth_value := some ⟨1/2, 1/2⟩, evidence := [] },
     { truth_value := none, evidence := [] }]
    (by simp)
    (by
      intro s hs tv hstv
      rw [List.mem_cons, List.mem_singleton] at hs
      rcases hs with h | h
      · subst h
        simp only [Option.some.injEq] at hstv
        rw [← hstv]
        norm_num
      · subst h
        simp at hstv)
    (by
      intro s hs
      rw [List.mem_cons, List.mem_singleton] at hs
      rcases hs with h | h
      · subst h; rfl
      · subst h; rfl)

/-! ### Query orchestrator (`orchestrator/orchestrator.py`)

String primitives model the Python operations used by the orchestrator:
`needle in hay` (substring containment), `str.lower()`/`str.strip()` (ASCII
case folding and whitespace stripping), `str.split(sep)` (non-overlapping
separator count), and the one regular expression `if.*then` (where `.` does
not match a newline). -/

/-- Does `needle` match at the head of `hay`? -/
def matchesAt : List Char → List Char → Bool
  | [], _ => true
  | _ :: _, [] => false
  | a :: n, b :: h => a == b && matchesAt n h

/-- Python `needle in hay` over the character list of `hay`. -/
def containsSub (needle : List Char) : List Char → Bool
  | [] => needle.isEmpty
  | c :: h => matchesAt needle (c :: h) || containsSub needle h

/-- Python `needle in hay` on strings. -/
def strContains (hay needle : String) : Bool :=
  containsSub needle.toList hay.toList

/-- Python `any(term in q for term in terms)`. -/
def anyTerm (q : String) (terms : List String) : Bool :=
  terms.any (fun t => strContains q t)

/-- Python `str.lower()` (ASCII case folding). -/
def pyLower (s : String) : String := String.mk (s.toList.map Char.toLower)

/-- Python `str.strip()`: whitespace removed from both ends. -/
def pyStrip (s : String) : String :=
  String.mk (((s.toList.dropWhile Char.isWhitespace).reverse.dropWhile
    Char.isWhitespace).reverse)

/-- Scanning tail of `re.search("if.*then", q)`: does `"then"` occur at or
after the current position, with no newline before it (`.` does not match a
newline)? -/
def thenAfter : List Char → Bool
  | [] => false
  | c :: h => matchesAt "then".toList (c :: h) || (c != '\n' && thenAfter h)

/-- `re.search("if.*then", q)`: an occurrence of `"if"` followed, at least two
positions later and with no intervening newline, by `"then"`. -/
def ifThenMatch : List Char → Bool
  | [] => false
  | c :: h =>
    (matchesAt "if".toList (c :: h) && thenAfter (h.drop 1)) || ifThenMatch h

/-- The number of non-overlapping occurrences of `sep` scanning left to right:
`len(q.split(sep)) = sepCountAux ... + 1`. The fuel is the list length (each
step consumes at least one character). -/
def sepCountAux (sep : List Char) : Nat → List Char → Nat
  | 0, _ => 0
  | _ + 1, [] => 0
  | fuel + 1, c :: h =>
    if matchesAt sep (c :: h) then
      1 + sepCountAux sep fuel (h.drop (sep.length - 1))
    else sepCountAux sep fuel h

/-- Non-overlapping occurrence count of `sep` in `l`. -/
def sepCount (sep : String) (l : List Char) : Nat :=
  sepCountAux sep.toList l.length l

/-- `CognitiveOrchestrator._needs_calculation`. -/
def needsCalculation (q : String) : Bool :=
  anyTerm q ["calculate", "compute", "score", "priority", "value"]

/-- `CognitiveOrchestrator._needs_documents`. -/
def needsDocuments (q : String) : Bool :=
  anyTerm q ["document", "pdf", "source", "paper", "research", "policy",
    "mention", "reference"]

/-- `CognitiveOrchestrator._needs_explanation`. -/
def needsExplanation (q : String) : Bool :=
  anyTerm q ["why", "how", "explain", "reason", "because", "rationale"]

/-- `CognitiveOrchestrator._needs_comparison`. -/
def needsComparison (q : String) : Bool :=
  anyTerm q ["compare", "difference", "versus", "vs", "better", "worse"]

/-- `CognitiveOrchestrator._needs_multi_hop`: literal indicator phrases plus
the `if.*then` regular expression. -/
def needsMultiHop (q : String) : Bool :=
  anyTerm q ["leads to", "causes", "results in", "relationship between",
    "impact on", "effect of", "consequence"] || ifThenMatch q.toList

/-- The detected intent (`CognitiveOrchestrator._detect_intent`). -/
inductive Intent
  | calculate | explain | compare | analyze | search | recommend | general
  deriving DecidableEq, Repr

/-- `CognitiveOrchestrator._detect_intent`: first matching keyword family. -/
def detectIntent (q : String) : Intent :=
  if anyTerm q ["calculate", "compute", "score"] then .calculate
  else if anyTerm q ["explain", "why", "how", "reason"] then .explain
  else if anyTerm q ["compare", "difference", "versus", "vs"] then .compare
  else if anyTerm q ["analyze", "analysis", "assess"] then .analyze
  else if anyTerm q ["find", "search", "what documents", "which sources",
    "show me"] then .search
  else if anyTerm q ["recommend", "suggest", "should"] then .recommend
  else .general

/-- `QueryComplexity` from `orchestrator.py`. -/
inductive QueryComplexity
  | simple | moderate | complex | veryComplex
  deriving DecidableEq, Repr

/-- `RoutingDecision` from `orchestrator.py`. -/
inductive RoutingDecision
  | metta | gateway | cognitive | hybridMetta | hybridGateway
  deriving DecidableEq, Repr

/-- The requirement count summed by `_is_very_complex` over the flags
`requires_reasoning, requires_explanation, requires_documents,
requires_comparison, requires_multi_hop`. -/
def countRequirements (reasoning expl docs comp mh : Bool) : Nat :=
  reasoning.toNat + expl.toNat + docs.toNat + comp.toNat + mh.toNat

/-- `len(query.split('and')) > 2 or len(query.split('or')) > 2` from
`_is_very_complex`. -/
def hasMultipleClauses (q : String) : Bool :=
  decide (sepCount "and" q.toList + 1 > 2) ||
    decide (sepCount "or" q.toList + 1 > 2)

/-- `CognitiveOrchestrator._is_very_complex`: at least 3 requirement flags, or
at least 2 together with multiple clauses. -/
def isVeryComplex (q : String) (reasoning expl docs comp mh : Bool) : Bool :=
  let requirements := countRequirements reasoning expl docs comp mh
  decide (3 ≤ requirements) ||
    (decide (2 ≤ requirements) && hasMultipleClauses q)

/-- The analysis record built by `CognitiveOrchestrator.analyze_query`
(keywords are not needed by any claim and are omitted). -/
structure Analysis where
  complexity : QueryComplexity
  requires_reasoning : Bool
  requires_explanation : Bool
  requires_documents : Bool
  requires_calculation : Bool
  requires_comparison : Bool
  requires_multi_hop : Bool
  intent : Intent
  deriving DecidableEq, Repr

/-- `CognitiveOrchestrator.analyze_query`: the query is lowercased and
stripped, the requirement flags are detected, and the complexity field is the
last assignment executed by the Python sequence of checks (very-complex, else
multi-hop, else any of comparison/explanation/documents, else simple). -/
def analyzeQuery (query : String) : Analysis :=
  let q := pyStrip (pyLower query)
  let calcFlag := needsCalculation q
  let docs := needsDocuments q
  let expl := needsExplanation q
  let comp := needsComparison q
  let mh := needsMultiHop q
  let reasoning := expl || comp || mh
  let vc := isVeryComplex q reasoning expl docs comp mh
  { complexity :=
      if vc then .veryComplex
      else if mh then .complex
      else if comp || expl || docs then .moderate
      else .simple
    requires_reasoning := reasoning || vc
    requires_explanation := expl
    requires_documents := docs
    requires_calculation := calcFlag
    requires_comparison := comp
    requires_multi_hop := mh
    intent := detectIntent q }

/-- `CognitiveOrchestrator._determine_routing`: the priority-ordered decision
table, first match wins. -/
def determineRouting (a : Analysis) : RoutingDecision :=
  if a.requires_documents then .cognitive
  else if a.requires_multi_hop then .cognitive
  else if a.complexity = .simple ∧ a.requires_calculation then .metta
  else if a.requires_explanation ∧ a.requires_calculation then .hybridMetta
  else if (a.intent = .compare ∨ a.intent = .analyze) ∧
      ¬a.requires_explanation then .gateway
  else if (a.intent = .compare ∨ a.intent = .analyze) ∧
      a.requires_explanation then .hybridGateway
  else if a.complexity = .complex ∨ a.complexity = .veryComplex then .cognitive
  else if a.complexity = .moderate ∧ a.requires_reasoning then .cognitive
  else .metta

/-- `CognitiveOrchestrator.route_query`: analyze, then route. -/
def routeQuery (query : String) : RoutingDecision :=
  determineRouting (analyzeQuery query)

/-- C4: whenever the analysis flags `requires_documents`, routing returns the
Cognitive (knowledge-base) decision — the first row of the decision table —
regardless of every other flag and of the detected intent. -/
theorem c4_documents_always_cognitive (query : String)
    (h : (analyzeQuery query).requires_documents = true) :
    routeQuery query = RoutingDecision.cognitive := by
  unfold routeQuery determineRouting
  rw [if_pos h]

/-- Witness for C4: the concrete query `"what documents mention poverty"`. -/
theorem c4_documents_always_cognitive_witness :
    routeQuery "what documents mention poverty" =
      RoutingDecision.cognitive :=
  c4_documents_always_cognitive "what documents mention poverty" rfl

/-- C9 counterexample: for the query `"explain why better"` only two of the
claim's five flags `{calculation, documents, explanation, comparison,
multi_hop}` are set, and the text contains no `"and"` or `"or"` at all, yet
`analyze_query` classifies it as VeryComplex (the code also counts the
derived `requires_reasoning` flag, reaching 3). -/
theorem c9_counterexample :
    (analyzeQuery "explain why better").complexity =
      QueryComplexity.veryComplex ∧
    (analyzeQuery "explain why better").requires_calculation = false ∧
    (analyzeQuery "explain why better").requires_documents = false ∧
    (analyzeQuery "explain why better").requires_explanation = true ∧
    (analyzeQuery "explain why better").requires_comparison = true ∧
    (analyzeQuery "explain why better").requires_multi_hop = false ∧
    sepCount "and" (pyStrip (pyLower "explain why better")).toList = 0 ∧
    sepCount "or" (pyStrip (pyLower "explain why better")).toList = 0 :=
  ⟨rfl, rfl, rfl, rfl, rfl, rfl, rfl, rfl⟩

/-- C9 (amended): `analyze_query` classifies a query as VeryComplex exactly
when at least 3 of the flags `{reasoning, explanation, documents, comparison,
multi_hop}` are set — where `reasoning` is derived as
`explanation ∨ comparison ∨ multi_hop` — or at least 2 of them are set and
the query text splits into more than 2 parts on `"and"` or on `"or"` (at
least 2 occurrences of either separator). -/
theorem c9_very_complex_iff (query : String) :
    (analyzeQuery query).complexity = QueryComplexity.veryComplex ↔
    (let q := pyStrip (pyLower query)
     let expl := needsExplanation q
     let docs := needsDocuments q
     let comp := needsComparison q
     let mh := needsMultiHop q
     let requirements := countRequirements (expl || comp || mh) expl docs
       comp mh
     3 ≤ requirements ∨
       (2 ≤ requirements ∧
         (2 ≤ sepCount "and" q.toList ∨ 2 ≤ sepCount "or" q.toList))) := by
  simp only [analyzeQuery]
  constructor
  · intro h
    by_cases hvc : isVeryComplex (pyStrip (pyLower query))
        (needsExplanation (pyStrip (pyLower query)) ||
          needsComparison (pyStrip (pyLower query)) ||
          needsMultiHop (pyStrip (pyLower query)))
        (needsExplanation (pyStrip (pyLower query)))
        (needsDocuments (pyStrip (pyLower query)))
        (needsComparison (pyStrip (pyLower query)))
        (needsMultiHop (pyStrip (pyLower query))) = true
    · simp only [isVeryComplex, hasMultipleClauses, Bool.or_eq_true,
        Bool.and_eq_true, decide_eq_true_eq] at hvc
      rcases hvc with h3 | ⟨h2, hclause⟩
      · exact Or.inl h3
      · exact Or.inr ⟨h2, by omega⟩
    · exfalso
      rw [Bool.not_eq_true] at hvc
      simp only [hvc, Bool.false_eq_true, if_false] at h
      split at h
      · exact QueryComplexity.noConfusion h
      · split at h
        · exact QueryComplexity.noConfusion h
        · exact QueryComplexity.noConfusion h
  · intro h
    have hvc : isVeryComplex (pyStrip (pyLower query))
        (needsExplanation (pyStrip (pyLower query)) ||
          needsComparison (pyStrip (pyLower query)) ||
          needsMultiHop (pyStrip (pyLower query)))
        (needsExplanation (pyStrip (pyLower query)))
        (needsDocuments (pyStrip (pyLower query)))
        (needsComparison (pyStrip (pyLower query)))
        (needsMultiHop (pyStrip (pyLower query))) = true := by
      simp only [isVeryComplex, hasMultipleClauses, Bool.or_eq_true,
        Bool.and_eq_true, decide_eq_true_eq]
      rcases h with h3 | ⟨h2, hclause⟩
      · exact Or.inl h3
      · exact Or.inr ⟨h2, by omega⟩
    simp only [hvc, if_true]

/-! ### Causal discovery (`causal_inference.py`)

Observations are association lists of named numeric values (non-numeric
values, which `_calculate_correlation` skips, are not modelled). The
correlation uses `** 0.5`, so this module is embedded over ℝ with
`Real.sqrt`. Python's `set` of variable names has unspecified iteration
order; it is modelled as the first-occurrence-ordered list of keys. -/

/-- `CausalRelation` from `causal_inference.py` (the formatted
`"Correlation: …"` evidence string is not modelled). -/
structure CausalRelation where
  cause : String
  effect : String
  strength : ℝ
  confidence : ℝ
  mechanism : Option String

/-- The pairs of values of `var1` and `var2` over the observations in which
both occur (the filtering loop of `_calculate_correlation`). -/
def pairedValues (data : List (List (String × ℚ))) (var1 var2 : String) :
    List (ℚ × ℚ) :=
  data.filterMap fun obs =>
    match alookup obs var1, alookup obs var2 with
    | some v1, some v2 => some (v1, v2)
    | _, _ => none

/-- `CausalInferenceEngine._calculate_correlation`: 0 with fewer than two
paired samples or a zero denominator, else the Pearson-style quotient. -/
noncomputable def correlation (data : List (List (String × ℚ)))
    (var1 var2 : String) : ℝ :=
  let ps := pairedValues data var1 var2
  if ps.length < 2 then 0
  else
    let n : ℝ := ps.length
    let mean1 := ((ps.map fun p => (p.1 : ℝ)).sum) / n
    let mean2 := ((ps.map fun p => (p.2 : ℝ)).sum) / n
    let num :=
      (ps.map fun p => ((p.1 : ℝ) - mean1) * ((p.2 : ℝ) - mean2)).sum
    let denom1 := Real.sqrt ((ps.map fun p => ((p.1 : ℝ) - mean1) ^ 2).sum)
    let denom2 := Real.sqrt ((ps.map fun p => ((p.2 : ℝ) - mean2) ^ 2).sum)
    if denom1 = 0 ∨ denom2 = 0 then 0 else num / (denom1 * denom2)

/-- The variables mentioned by the observations, first occurrence first. -/
def variablesOf (data : List (List (String × ℚ))) : List String :=
  data.foldl
    (fun acc obs =>
      obs.foldl (fun a p => if p.1 ∈ a then a else a ++ [p.1]) acc) []

/-- `CausalInferenceEngine.discover_causal_relations`: no relations for fewer
than 3 observations; otherwise, for every ordered pair of distinct variables
whose correlation exceeds 0.6 in absolute value, one relation with
`strength = |correlation|` and `confidence = min(0.7, n_observations/10)`. -/
noncomputable def discoverCausalRelations
    (data : List (List (String × ℚ))) : List CausalRelation :=
  if data.length < 3 then []
  else
    let vars := variablesOf data
    vars.flatMap fun var1 =>
      vars.filterMap fun var2 =>
        if var1 = var2 then none
        else
          let corr := correlation data var1 var2
          if |corr| > 6/10 then
            some { cause := var1, effect := var2, strength := |corr|
                   confidence := min (7/10) ((data.length : ℝ) / 10)
                   mechanism := some "Statistical association" }
          else none

/-- The spec's discovery scenario: 4 observations in which `poverty` and
`allocation` are perfectly correlated. -/
def scenarioData : List (List (String × ℚ)) :=
  [[("poverty", 1), ("allocation", 1)],
   [("poverty", 2), ("allocation", 2)],
   [("poverty", 3), ("allocation", 3)],
   [("poverty", 4), ("allocation", 4)]]

/-- In the scenario both ordered pairs have correlation exactly 1 (helper for
C3). -/
theorem correlation_scenario :
    correlation scenarioData "poverty" "allocation" = 1 ∧
    correlation scenarioData "allocation" "poverty" = 1 := by
  have hps : pairedValues scenarioData "poverty" "allocation" =
      [(1, 1), (2, 2), (3, 3), (4, 4)] := rfl
  have hps' : pairedValues scenarioData "allocation" "poverty" =
      [(1, 1), (2, 2), (3, 3), (4, 4)] := rfl
  constructor <;>
  · simp only [correlation, hps, hps', List.length_cons, List.length_nil,
      List.map_cons, List.map_nil, List.sum_cons, List.sum_nil]
    norm_num

/-- The discovery run on the scenario data, computed in full (helper for C3):
both ordered pairs are emitted, each with strength 1 and confidence
`min(0.7, 4/10) = 0.4`. -/
theorem discover_scenario_eq :
    discoverCausalRelations scenarioData =
      [{ cause := "poverty", effect := "allocation", strength := 1
         confidence := 2/5, mechanism := some "Statistical association" },
       { cause := "allocation", effect := "poverty", strength := 1
         confidence := 2/5, mechanism := some "Statistical association" }] := by
  have hvars : variablesOf scenarioData = ["poverty", "allocation"] := rfl
  have hlen : scenarioData.length = 4 := rfl
  obtain ⟨hpa, hap⟩ := correlation_scenario
  simp only [discoverCausalRelations, hvars, hlen]
  norm_num
  simp only [List.flatMap_cons, List.flatMap_nil, List.filterMap_cons,
    List.filterMap_nil, hpa, hap]
  norm_num
  rw [if_neg (by decide : ¬("poverty" = "allocation"))]
  rw [if_neg (by decide : ¬("allocation" = "poverty"))]
  rfl

/-- C3 counterexample: on the spec's 4-observation perfectly-correlated
scenario, discovery emits two causal relations — one for each ordered pair of
the two variables — not exactly one. -/
theorem c3_counterexample :
    (discoverCausalRelations scenarioData).length = 2 := by
  rw [discover_scenario_eq]
  rfl

/-- C3 (amended): discovery emits no relations for fewer than 3 observations;
every emitted relation joins two distinct variables with
`strength = |correlation|`, `|correlation| > 0.6` and
`confidence = min(0.7, n_observations/10)`; and the spec's scenario yields
exactly two relations (`poverty→allocation` and `allocation→poverty`), each
with strength 1.0 and confidence 0.4. -/
theorem c3_discovery :
    (∀ data : List (List (String × ℚ)), data.length < 3 →
      discoverCausalRelations data = []) ∧
    (∀ (data : List (List (String × ℚ))) (r : CausalRelation),
      r ∈ discoverCausalRelations data →
      r.cause ≠ r.effect ∧
      r.strength = |correlation data r.cause r.effect| ∧
      |correlation data r.cause r.effect| > 6/10 ∧
      r.confidence = min (7/10) ((data.length : ℝ) / 10)) ∧
    discoverCausalRelations scenarioData =
      [{ cause := "poverty", effect := "allocation", strength := 1
         confidence := 2/5, mechanism := some "Statistical association" },
       { cause := "allocation", effect := "poverty", strength := 1
         confidence := 2/5, mechanism := some "Statistical association" }] := by
  refine ⟨?_, ?_, discover_scenario_eq⟩
  · intro data h
    simp [discoverCausalRelations, h]
  · intro data r hr
    rw [discoverCausalRelations] at hr
    split at hr
    · simp at hr
    · simp only [List.mem_flatMap, List.mem_filterMap] at hr
      obtain ⟨v1, hv1, v2, hv2, hg⟩ := hr
      by_cases heq : v1 = v2
      · rw [if_pos heq] at hg
        exact absurd hg (by simp)
      · rw [if_neg heq] at hg
        by_cases hcorr : |correlation data v1 v2| > 6/10
        · rw [if_pos hcorr] at hg
          simp only [Option.some.injEq] at hg
          subst hg
          exact ⟨heq, rfl, hcorr, rfl⟩
        · rw [if_neg hcorr] at hg
          exact absurd hg (by simp)

/-- Witness for C3 (amended): the empty data set has fewer than 3
observations and yields no relations. -/
theorem c3_discovery_witness :
    discoverCausalRelations [] = [] :=
  c3_discovery.1 [] (by norm_num)

end CivicXAI
